import Mathlib

/-!
Shallow embedding of the real-time collaboration core of the
collaborative-document backend: the websocket connection registry
(`internal/ws/repository`, file `src/unnamed/part_002`) and the
collaboration service dispatch layer
(`src/internal/ws/service/ws_service.go`).

Modelling conventions:
* `uuid.UUID` values (document ids, user ids) are modelled as `Nat`;
  connection ids (Go `string`) are `String`.
* Go maps become association lists; Go map iteration order is the list
  order (all verified statements are insensitive to that order except
  where a claim pins the order down by hypothesis).
* A `Client`'s buffered `Send` channel is modelled as a `QueueState`
  stored in a per-connection-id heap `RegState.queues`: `msgs` is the
  buffered content (FIFO), `capacity` the channel capacity, and
  `closeCount` the number of times `close` has been executed on it
  (Go panics on a double close, so `closeCount ≤ 1` is the healthy
  range and lets exactly-once closing be stated).
* Serialized JSON frames (`[]byte`) are modelled by the structured
  `Frame` type; `json.Marshal` of the concrete outbound message
  structures cannot fail, so marshalling is a total constructor.
* Effectful inputs (the `CanUserAccess` collaborator, the result of
  `json.Unmarshal` on inbound bytes, `time.Now()`) are passed in as
  explicit parameters/oracles.
-/

namespace Collab

/-- One JSON-patch operation (`model.JSONPatchOperation`). -/
structure Patch where
  op : String
  path : String
  value : Option String
deriving DecidableEq, Repr

/-- Payload of a cursor frame (`model.CursorMessage` minus the envelope). -/
structure CursorMsg where
  docId : Nat
  line : Int
  col : Int
  userId : Nat
  userName : String
  color : String
deriving DecidableEq, Repr

/-- A serialized outbound frame (`[]byte` on the `Send` channel),
modelled structurally. -/
inductive Frame where
  | update (docId : Nat) (version : Int) (patches : List Patch)
      (userId : Nat) (userName : String) (timestamp : Nat)
  | cursor (m : CursorMsg)
  | pong
  | mkError (code : String) (message : String)
  | raw (payload : String)
deriving DecidableEq, Repr

/-- Payload of a subscribe frame (`model.SubscribeMessage`). -/
structure SubscribeMsg where
  docId : Nat
deriving DecidableEq, Repr

/-- The registry's `Client` struct: identity fields only; the `Send`
channel object lives in `RegState.queues` under the client id. -/
structure Client where
  id : String
  userId : Nat
  name : String
deriving DecidableEq, Repr

/-- State of one buffered `Send` channel. -/
structure QueueState where
  msgs : List Frame
  capacity : Nat
  closeCount : Nat
deriving DecidableEq, Repr

/-- The `wsRepository` state: `clients` is the live-client map,
`subscribers` the document → subscriber-id-set index, and `queues` the
heap of per-connection channel objects (keyed by connection id; a
channel object outlives its registry entry). -/
structure RegState where
  clients : List Client
  subscribers : List (Nat × List String)
  queues : List (String × QueueState)
deriving DecidableEq, Repr

/-- Connection ids of the live clients. -/
def clientIds (st : RegState) : List String :=
  st.clients.map Client.id

/-- Read the channel object registered under connection id `x`. -/
def lookupQueue (st : RegState) (x : String) : Option QueueState :=
  (st.queues.find? (fun p => p.1 = x)).map Prod.snd

/-- Apply `f` to the channel object stored under id `x` (models a
mutation of the heap channel object). -/
def modifyQueue (qs : List (String × QueueState)) (x : String)
    (f : QueueState → QueueState) : List (String × QueueState) :=
  qs.map (fun p => if p.1 = x then (p.1, f p.2) else p)

/-- `NewWSRepository`: empty maps, no channel objects yet. -/
def emptyState : RegState :=
  { clients := [], subscribers := [], queues := [] }

/-- `wsRepository.RegisterClient` (part_002 lines 57-65):
`r.clients[client.ID] = client`. -/
def RegisterClient (st : RegState) (c : Client) : RegState :=
  if st.clients.any (fun x => x.id = c.id) then
    { st with clients := st.clients.map (fun x => if x.id = c.id then c else x) }
  else
    { st with clients := st.clients ++ [c] }

/-- The subscriber-map loop of `UnregisterClient` (part_002 lines
72-83): delete the id from every document's subscriber set and prune
every entry that is left (or already was) empty. -/
def purgeSubs (l : List (Nat × List String)) (i : String) : List (Nat × List String) :=
  l.filterMap (fun ds =>
    if (ds.2.filter (fun j => j ≠ i)).isEmpty then none
    else some (ds.1, ds.2.filter (fun j => j ≠ i)))

/-- `wsRepository.UnregisterClient` (part_002 lines 68-91): purge the
id from the whole subscription index; then, if the client is live,
remove it from the live map and `close(client.Send)`. -/
def UnregisterClient (st : RegState) (c : Client) : RegState :=
  if st.clients.any (fun x => x.id = c.id) then
    { clients := st.clients.filter (fun x => x.id ≠ c.id),
      subscribers := purgeSubs st.subscribers c.id,
      queues := modifyQueue st.queues c.id
        (fun q => { q with closeCount := q.closeCount + 1 }) }
  else
    { st with subscribers := purgeSubs st.subscribers c.id }

/-- `wsRepository.GetClients` (part_002 lines 94-104): snapshot of the
live clients. -/
def GetClients (st : RegState) : List Client :=
  st.clients

/-- `wsRepository.Subscribe` (part_002 lines 107-119): create the
document entry if missing, then add the id (set semantics). -/
def Subscribe (st : RegState) (documentID : Nat) (clientID : String) : RegState :=
  match st.subscribers.find? (fun ds => ds.1 = documentID) with
  | some _ =>
      { st with subscribers := st.subscribers.map (fun ds =>
          if ds.1 = documentID then
            (ds.1, if clientID ∈ ds.2 then ds.2 else ds.2 ++ [clientID])
          else ds) }
  | none =>
      { st with subscribers := st.subscribers ++ [(documentID, [clientID])] }

/-- `wsRepository.Unsubscribe` (part_002 lines 122-138): if the
document has an entry, delete the id from it and prune the entry when
it is left empty. -/
def Unsubscribe (st : RegState) (documentID : Nat) (clientID : String) : RegState :=
  match st.subscribers.find? (fun ds => ds.1 = documentID) with
  | none => st
  | some _ =>
      { st with subscribers := st.subscribers.filterMap (fun ds =>
          if ds.1 = documentID then
            if (ds.2.filter (fun i => i ≠ clientID)).isEmpty then none
            else some (ds.1, ds.2.filter (fun i => i ≠ clientID))
          else some ds) }

/-- `wsRepository.GetSubscribers` (part_002 lines 141-157): resolve the
document's subscriber ids against the live-client map, silently
skipping ids with no live client. -/
def GetSubscribers (st : RegState) (documentID : Nat) : List Client :=
  match st.subscribers.find? (fun ds => ds.1 = documentID) with
  | none => []
  | some ds => ds.2.filterMap (fun i => st.clients.find? (fun c => c.id = i))

/-- The `select`-with-`default` body shared by both broadcast loops
(part_002 lines 168-177 and 200-210): a non-blocking send that, on a
full buffer, evicts the slow consumer via `UnregisterClient`. Every
`Client` constructed by the service owns a channel, so the
missing-channel branch is unreachable over real states. -/
def sendOrEvict (st : RegState) (c : Client) (msg : Frame) : RegState :=
  match lookupQueue st c.id with
  | none => st
  | some q =>
      if q.msgs.length < q.capacity then
        { st with
            queues := modifyQueue st.queues c.id
              (fun qq => { qq with msgs := qq.msgs ++ [msg] }) }
      else
        UnregisterClient st c

/-- `wsRepository.BroadcastToDocument` (part_002 lines 160-179):
snapshot the subscribers, then for each one other than
`excludeClientID` attempt the non-blocking send. -/
def BroadcastToDocument (st : RegState) (documentID : Nat) (message : Frame)
    (excludeClientID : String) : RegState :=
  (GetSubscribers st documentID).foldl
    (fun s c => if c.id = excludeClientID then s else sendOrEvict s c message) st

/-- `wsRepository.BroadcastCursorPosition` (part_002 lines 183-212):
same fan-out, but skipping every subscriber owned by the message's
user (`client.UserID == message.User.ID`); marshalling the cursor
message cannot fail. -/
def BroadcastCursorPosition (st : RegState) (documentID : Nat) (m : CursorMsg) : RegState :=
  (GetSubscribers st documentID).foldl
    (fun s c => if c.userId = m.userId then s else sendOrEvict s c (Frame.cursor m)) st

/-! Service layer (`src/internal/ws/service/ws_service.go`). The
external `docRepo.CanUserAccess(ctx, documentID, userID, permission)`
collaborator is an oracle parameter of type
`Nat → Nat → String → Except String Bool`; decoding of inbound bytes
into the typed payloads is likewise passed in as `Except` oracles. -/

/-- Result type of the `CanUserAccess` collaborator. -/
abbrev AccessCheck := Nat → Nat → String → Except String Bool

/-- A blocking `client.Send <- bytes` (ws_service.go lines 115, 223):
a blocking channel send eventually delivers, so it is modelled as an
unconditional append to the buffer. A missing channel object cannot
occur for a service-constructed client. -/
def enqueueBlocking (st : RegState) (x : String) (msg : Frame) : RegState :=
  { st with
      queues := modifyQueue st.queues x
        (fun q => { q with msgs := q.msgs ++ [msg] }) }

/-- `wsService.handleSubscribe` (ws_service.go lines 166-186): decode,
check read access, and either error out (state untouched) or record
the subscription. -/
def handleSubscribe (access : AccessCheck) (st : RegState) (clientID : String)
    (userID : Nat) (sub : Except String SubscribeMsg) : RegState × Except String Unit :=
  match sub with
  | .error e => (st, .error e)
  | .ok m =>
      match access m.docId userID "read" with
      | .error e => (st, .error e)
      | .ok false => (st, .error "unauthorized access to document")
      | .ok true => (Subscribe st m.docId clientID, .ok ())

/-- `wsService.handleCursor` (ws_service.go lines 188-206): decode,
check read access, then relay through `BroadcastCursorPosition`. -/
def handleCursor (access : AccessCheck) (st : RegState) (userID : Nat)
    (cur : Except String CursorMsg) : RegState × Except String Unit :=
  match cur with
  | .error e => (st, .error e)
  | .ok m =>
      match access m.docId userID "read" with
      | .error e => (st, .error e)
      | .ok false => (st, .error "unauthorized access to document")
      | .ok true => (BroadcastCursorPosition st m.docId m, .ok ())

/-- `wsService.handlePing` (ws_service.go lines 208-229): marshal a
pong (cannot fail), then send it to the first live client whose id
matches and stop; a missing client means no send at all, and the
handler still returns success. -/
def handlePing (st : RegState) (clientID : String) : RegState × Except String Unit :=
  match (GetClients st).find? (fun c => c.id = clientID) with
  | some c => (enqueueBlocking st c.id Frame.pong, .ok ())
  | none => (st, .ok ())

/-- `wsService.ProcessMessage` (ws_service.go lines 153-164): dispatch
on the discriminant string. -/
def ProcessMessage (access : AccessCheck) (st : RegState) (clientID : String)
    (userID : Nat) (messageType : String) (sub : Except String SubscribeMsg)
    (cur : Except String CursorMsg) : RegState × Except String Unit :=
  if messageType = "subscribe" then handleSubscribe access st clientID userID sub
  else if messageType = "cursor" then handleCursor access st userID cur
  else if messageType = "ping" then handlePing st clientID
  else (st, .error "invalid message type")

/-- One inbound frame as the read pump sees it after `ReadMessage`:
either the envelope `json.Unmarshal` into `BaseMessage` fails, or it
yields a discriminant string together with the (lazily attempted)
typed decodes the handlers would perform. -/
inductive Inbound where
  | malformed
  | wellFormed (t : String) (sub : Except String SubscribeMsg)
      (cur : Except String CursorMsg)

/-- One iteration of `wsService.readPump`'s loop body on a
successfully read frame (ws_service.go lines 97-117): an envelope
decode failure is logged and skipped; a `ProcessMessage` error is
marshalled as an error frame (code `"error"`, the error's text) and
sent back to the same client; in every case the loop continues
(`Bool` result `true` = the connection stays open). -/
def readPumpStep (access : AccessCheck) (st : RegState) (client : Client)
    (inb : Inbound) : RegState × Bool :=
  match inb with
  | .malformed => (st, true)
  | .wellFormed t sub cur =>
      match ProcessMessage access st client.id client.userId t sub cur with
      | (st1, .ok _) => (st1, true)
      | (st1, .error e) => (enqueueBlocking st1 client.id (Frame.mkError "error" e), true)

/-- `wsService.BroadcastDocumentUpdate` (ws_service.go lines 232-268):
build the update frame (timestamp passed in for `time.Now()`), resolve
the author's first live connection id as the exclusion (zero-value
`""` when the author has no live connection), and fan out. Marshalling
cannot fail, so the call always returns success. -/
def BroadcastDocumentUpdate (st : RegState) (documentID : Nat) (userID : Nat)
    (userName : String) (version : Int) (patches : List Patch)
    (timestamp : Nat) : RegState × Except String Unit :=
  let message := Frame.update documentID version patches userID userName timestamp
  let excludeClientID :=
    match (GetClients st).find? (fun c => c.userId = userID) with
    | some c => c.id
    | none => ""
  (BroadcastToDocument st documentID message excludeClientID, .ok ())

/-! Reachability of registry states by sequences of the public
registry operations, and the subscription-index invariant. -/

/-- The subscription-index health invariant: no pruned-empty entry
survives, and every subscribed id belongs to a live client. -/
def Inv (st : RegState) : Prop :=
  ∀ p ∈ st.subscribers, p.2 ≠ [] ∧ ∀ i ∈ p.2, i ∈ clientIds st

instance (st : RegState) : Decidable (Inv st) := by
  unfold Inv; infer_instance

/-- States reachable from the fresh repository by arbitrary calls of
the six public registry operations, with unrestricted arguments. -/
inductive ReachableAny : RegState → Prop where
  | init : ReachableAny emptyState
  | register (st : RegState) (c : Client) :
      ReachableAny st → ReachableAny (RegisterClient st c)
  | unregister (st : RegState) (c : Client) :
      ReachableAny st → ReachableAny (UnregisterClient st c)
  | subscribe (st : RegState) (d : Nat) (i : String) :
      ReachableAny st → ReachableAny (Subscribe st d i)
  | unsubscribe (st : RegState) (d : Nat) (i : String) :
      ReachableAny st → ReachableAny (Unsubscribe st d i)
  | broadcast (st : RegState) (d : Nat) (msg : Frame) (ex : String) :
      ReachableAny st → ReachableAny (BroadcastToDocument st d msg ex)
  | cursor (st : RegState) (d : Nat) (m : CursorMsg) :
      ReachableAny st → ReachableAny (BroadcastCursorPosition st d m)

/-- States reachable as above, but where every `Subscribe` call names
a currently live client id — the discipline the service layer follows
(it only subscribes the id of the connection whose pump is running). -/
inductive Reachable : RegState → Prop where
  | init : Reachable emptyState
  | register (st : RegState) (c : Client) :
      Reachable st → Reachable (RegisterClient st c)
  | unregister (st : RegState) (c : Client) :
      Reachable st → Reachable (UnregisterClient st c)
  | subscribe (st : RegState) (d : Nat) (i : String) :
      Reachable st → i ∈ clientIds st → Reachable (Subscribe st d i)
  | unsubscribe (st : RegState) (d : Nat) (i : String) :
      Reachable st → Reachable (Unsubscribe st d i)
  | broadcast (st : RegState) (d : Nat) (msg : Frame) (ex : String) :
      Reachable st → Reachable (BroadcastToDocument st d msg ex)
  | cursor (st : RegState) (d : Nat) (m : CursorMsg) :
      Reachable st → Reachable (BroadcastCursorPosition st d m)

/-! Basic lemmas about the queue heap. -/

theorem find_modify_ne (qs : List (String × QueueState)) (x y : String)
    (f : QueueState → QueueState) (h : y ≠ x) :
    (modifyQueue qs x f).find? (fun p => p.1 = y) = qs.find? (fun p => p.1 = y) := by
  induction qs with
  | nil => rfl
  | cons p t ih =>
    simp only [modifyQueue, List.map_cons]
    by_cases hx : p.1 = x
    · have hy : ¬ p.1 = y := fun hh => h (hx ▸ hh ▸ rfl)
      rw [if_pos hx]
      rw [List.find?_cons_of_neg _ (by simpa using hy),
          List.find?_cons_of_neg _ (by simpa using hy)]
      exact ih
    · rw [if_neg hx]
      by_cases hy : p.1 = y
      · rw [List.find?_cons_of_pos _ (by simpa using hy),
            List.find?_cons_of_pos _ (by simpa using hy)]
      · rw [List.find?_cons_of_neg _ (by simpa using hy),
            List.find?_cons_of_neg _ (by simpa using hy)]
        exact ih

theorem find_modify_self (qs : List (String × QueueState)) (x : String)
    (f : QueueState → QueueState) :
    ((modifyQueue qs x f).find? (fun p => p.1 = x)).map Prod.snd
      = ((qs.find? (fun p => p.1 = x)).map Prod.snd).map f := by
  induction qs with
  | nil => rfl
  | cons p t ih =>
    simp only [modifyQueue, List.map_cons]
    by_cases hx : p.1 = x
    · rw [if_pos hx]
      rw [List.find?_cons_of_pos _ (by simpa using hx),
          List.find?_cons_of_pos _ (by simpa using hx)]
      rfl
    · rw [if_neg hx]
      rw [List.find?_cons_of_neg _ (by simpa using hx),
          List.find?_cons_of_neg _ (by simpa using hx)]
      exact ih

theorem clientIds_any (st : RegState) (i : String) :
    st.clients.any (fun x => x.id = i) = true ↔ i ∈ clientIds st := by
  rw [List.any_eq_true]
  constructor
  · rintro ⟨x, hx, hxi⟩
    simp only [decide_eq_true_eq] at hxi
    exact hxi ▸ List.mem_map_of_mem Client.id hx
  · intro hi
    simp only [clientIds, List.mem_map] at hi
    obtain ⟨x, hx, hxi⟩ := hi
    exact ⟨x, hx, by simp [hxi]⟩

/-! Lemmas about the subscriber purge performed by `UnregisterClient`. -/

theorem UnregisterClient_subscribers (st : RegState) (c : Client) :
    (UnregisterClient st c).subscribers = purgeSubs st.subscribers c.id := by
  unfold UnregisterClient
  by_cases h : st.clients.any (fun x => x.id = c.id) = true
  · rw [if_pos h]
  · rw [if_neg h]

theorem purgeSubs_spec (l : List (Nat × List String)) (i : String) :
    ∀ p ∈ purgeSubs l i, p.2 ≠ [] ∧ i ∉ p.2 := by
  intro p hp
  simp only [purgeSubs, List.mem_filterMap] at hp
  obtain ⟨ds, hds0, hds⟩ := hp
  by_cases he : (ds.2.filter (fun j => j ≠ i)).isEmpty = true
  · rw [if_pos he] at hds
    exact absurd hds (by simp)
  · rw [if_neg he] at hds
    have hval := Option.some.inj hds
    subst hval
    refine ⟨?_, ?_⟩
    · intro hnil
      have hnil2 : ds.2.filter (fun j => j ≠ i) = [] := hnil
      rw [hnil2] at he
      simp at he
    · intro hmem
      simp only [List.mem_filter, decide_eq_true_eq] at hmem
      exact hmem.2 rfl

theorem purgeSubs_mem (l : List (Nat × List String)) (i : String) :
    ∀ p ∈ purgeSubs l i, ∀ j ∈ p.2, ∃ p0 ∈ l, j ∈ p0.2 ∧ j ≠ i := by
  intro p hp j hj
  simp only [purgeSubs, List.mem_filterMap] at hp
  obtain ⟨ds, hds0, hds⟩ := hp
  by_cases he : (ds.2.filter (fun j => j ≠ i)).isEmpty = true
  · rw [if_pos he] at hds
    exact absurd hds (by simp)
  · rw [if_neg he] at hds
    have hval := Option.some.inj hds
    subst hval
    simp only [List.mem_filter, decide_eq_true_eq] at hj
    exact ⟨ds, hds0, hj.1, hj.2⟩

theorem purgeSubs_of_absent (l : List (Nat × List String)) (i : String)
    (h : ∀ p ∈ l, p.2 ≠ [] ∧ i ∉ p.2) : purgeSubs l i = l := by
  induction l with
  | nil => rfl
  | cons p t ih =>
    have hp := h p (List.mem_cons_self p t)
    have hfilter : p.2.filter (fun j => j ≠ i) = p.2 := by
      apply List.filter_eq_self.mpr
      intro j hj
      simp only [decide_eq_true_eq]
      intro hji
      exact hp.2 (hji ▸ hj)
    have hne : ¬ (p.2.filter (fun j => j ≠ i)).isEmpty = true := by
      rw [hfilter]
      cases hcc : p.2 with
      | nil => exact absurd hcc hp.1
      | cons a b => simp
    have ht : purgeSubs t i = t := ih (fun q hq => h q (List.mem_cons_of_mem p hq))
    have hfp : (if (p.2.filter (fun j => j ≠ i)).isEmpty = true then none
        else some (p.1, p.2.filter (fun j => j ≠ i))) = some p := by
      rw [if_neg hne, hfilter]
    unfold purgeSubs at ht ⊢
    rw [List.filterMap_cons, hfp, ht]

/-! Per-operation lemmas for `UnregisterClient`. -/

theorem unreg_queues_pos (st : RegState) (c : Client) (hlive : c.id ∈ clientIds st) :
    (UnregisterClient st c).queues = modifyQueue st.queues c.id
      (fun q => { q with closeCount := q.closeCount + 1 }) := by
  unfold UnregisterClient
  rw [if_pos ((clientIds_any st c.id).mpr hlive)]

theorem unreg_queues_neg (st : RegState) (c : Client) (h : c.id ∉ clientIds st) :
    (UnregisterClient st c).queues = st.queues := by
  unfold UnregisterClient
  rw [if_neg (fun hh => h ((clientIds_any st c.id).mp hh))]

theorem unreg_queue_ne (st : RegState) (c : Client) (x : String) (h : x ≠ c.id) :
    lookupQueue (UnregisterClient st c) x = lookupQueue st x := by
  unfold lookupQueue
  by_cases hc : c.id ∈ clientIds st
  · rw [unreg_queues_pos st c hc, find_modify_ne _ _ _ _ h]
  · rw [unreg_queues_neg st c hc]

theorem unreg_queue_self (st : RegState) (c : Client) (q : QueueState)
    (hlive : c.id ∈ clientIds st) (hq : lookupQueue st c.id = some q) :
    lookupQueue (UnregisterClient st c) c.id
      = some { q with closeCount := q.closeCount + 1 } := by
  unfold lookupQueue
  rw [unreg_queues_pos st c hlive, find_modify_self]
  unfold lookupQueue at hq
  rw [hq]
  rfl

theorem unreg_not_clientId (st : RegState) (c : Client) :
    c.id ∉ clientIds (UnregisterClient st c) := by
  unfold UnregisterClient
  by_cases hc : st.clients.any (fun y => y.id = c.id) = true
  · rw [if_pos hc]
    simp only [clientIds, List.mem_map]
    rintro ⟨a, ha, haid⟩
    simp only [List.mem_filter, decide_eq_true_eq] at ha
    exact ha.2 haid
  · rw [if_neg hc]
    simp only [clientIds, List.mem_map]
    rintro ⟨a, ha, haid⟩
    rw [List.any_eq_true] at hc
    exact hc ⟨a, ha, by simp [haid]⟩

theorem unreg_clientIds_subset (st : RegState) (c : Client) (x : String)
    (h : x ∈ clientIds (UnregisterClient st c)) : x ∈ clientIds st := by
  unfold UnregisterClient at h
  by_cases hc : st.clients.any (fun y => y.id = c.id) = true
  · rw [if_pos hc] at h
    simp only [clientIds, List.mem_map] at h ⊢
    obtain ⟨a, ha, haid⟩ := h
    exact ⟨a, (List.mem_filter.mp ha).1, haid⟩
  · rw [if_neg hc] at h
    exact h

theorem unreg_clientIds_keep (st : RegState) (c : Client) (x : String)
    (hne : x ≠ c.id) (h : x ∈ clientIds st) : x ∈ clientIds (UnregisterClient st c) := by
  unfold UnregisterClient
  by_cases hc : st.clients.any (fun y => y.id = c.id) = true
  · rw [if_pos hc]
    simp only [clientIds, List.mem_map] at h ⊢
    obtain ⟨a, ha, haid⟩ := h
    refine ⟨a, List.mem_filter.mpr ⟨ha, ?_⟩, haid⟩
    simp only [decide_eq_true_eq]
    intro hac
    exact hne (haid ▸ hac ▸ rfl)
  · rw [if_neg hc]
    exact h

theorem unreg_nosub (st : RegState) (c : Client) :
    ∀ p ∈ (UnregisterClient st c).subscribers, c.id ∉ p.2 := by
  intro p hp
  rw [UnregisterClient_subscribers] at hp
  exact (purgeSubs_spec _ _ p hp).2

theorem unreg_nonempty (st : RegState) (c : Client) :
    ∀ p ∈ (UnregisterClient st c).subscribers, p.2 ≠ [] := by
  intro p hp
  rw [UnregisterClient_subscribers] at hp
  exact (purgeSubs_spec _ _ p hp).1

theorem unreg_nosub_stable (st : RegState) (c : Client) (x : String)
    (h : ∀ p ∈ st.subscribers, x ∉ p.2) :
    ∀ p ∈ (UnregisterClient st c).subscribers, x ∉ p.2 := by
  intro p hp hx
  rw [UnregisterClient_subscribers] at hp
  obtain ⟨p0, hp0, hx0, _⟩ := purgeSubs_mem _ _ p hp x hx
  exact h p0 hp0 hx0

/-! Per-operation lemmas for `sendOrEvict` and `enqueueBlocking`. -/

theorem se_none_eq (s : RegState) (c : Client) (msg : Frame)
    (hq : lookupQueue s c.id = none) : sendOrEvict s c msg = s := by
  unfold sendOrEvict
  rw [hq]

theorem se_room_eq (s : RegState) (c : Client) (msg : Frame) (q : QueueState)
    (hq : lookupQueue s c.id = some q) (hr : q.msgs.length < q.capacity) :
    sendOrEvict s c msg = { s with
      queues := modifyQueue s.queues c.id
        (fun qq => { qq with msgs := qq.msgs ++ [msg] }) } := by
  unfold sendOrEvict
  rw [hq]
  dsimp only
  rw [if_pos hr]

theorem se_full_eq (s : RegState) (c : Client) (msg : Frame) (q : QueueState)
    (hq : lookupQueue s c.id = some q) (hr : ¬ q.msgs.length < q.capacity) :
    sendOrEvict s c msg = UnregisterClient s c := by
  unfold sendOrEvict
  rw [hq]
  dsimp only
  rw [if_neg hr]

theorem se_queue_ne (s : RegState) (c : Client) (msg : Frame) (x : String)
    (h : x ≠ c.id) : lookupQueue (sendOrEvict s c msg) x = lookupQueue s x := by
  cases hq : lookupQueue s c.id with
  | none => rw [se_none_eq s c msg hq]
  | some q =>
    by_cases hr : q.msgs.length < q.capacity
    · rw [se_room_eq s c msg q hq hr]
      exact congrArg (Option.map Prod.snd)
        (find_modify_ne s.queues c.id x (fun qq => { qq with msgs := qq.msgs ++ [msg] }) h)
    · rw [se_full_eq s c msg q hq hr]
      exact unreg_queue_ne s c x h

theorem se_room_queue (s : RegState) (c : Client) (msg : Frame) (q : QueueState)
    (hq : lookupQueue s c.id = some q) (hr : q.msgs.length < q.capacity) :
    lookupQueue (sendOrEvict s c msg) c.id = some { q with msgs := q.msgs ++ [msg] } := by
  rw [se_room_eq s c msg q hq hr]
  have h1 : lookupQueue ({ s with
        queues := modifyQueue s.queues c.id
          (fun qq => { qq with msgs := qq.msgs ++ [msg] }) }) c.id
      = ((s.queues.find? (fun p => p.1 = c.id)).map Prod.snd).map
          (fun qq => { qq with msgs := qq.msgs ++ [msg] }) :=
    find_modify_self s.queues c.id (fun qq => { qq with msgs := qq.msgs ++ [msg] })
  rw [h1]
  unfold lookupQueue at hq
  rw [hq]
  rfl

theorem se_clientIds_subset (s : RegState) (c : Client) (msg : Frame) (x : String)
    (h : x ∈ clientIds (sendOrEvict s c msg)) : x ∈ clientIds s := by
  cases hq : lookupQueue s c.id with
  | none => rw [se_none_eq s c msg hq] at h; exact h
  | some q =>
    by_cases hr : q.msgs.length < q.capacity
    · rw [se_room_eq s c msg q hq hr] at h
      exact h
    · rw [se_full_eq s c msg q hq hr] at h
      exact unreg_clientIds_subset s c x h

theorem se_clientIds_keep (s : RegState) (c : Client) (msg : Frame) (x : String)
    (hne : x ≠ c.id) (h : x ∈ clientIds s) : x ∈ clientIds (sendOrEvict s c msg) := by
  cases hq : lookupQueue s c.id with
  | none => rw [se_none_eq s c msg hq]; exact h
  | some q =>
    by_cases hr : q.msgs.length < q.capacity
    · rw [se_room_eq s c msg q hq hr]
      exact h
    · rw [se_full_eq s c msg q hq hr]
      exact unreg_clientIds_keep s c x hne h

theorem se_nosub_stable (s : RegState) (c : Client) (msg : Frame) (x : String)
    (h : ∀ p ∈ s.subscribers, x ∉ p.2) :
    ∀ p ∈ (sendOrEvict s c msg).subscribers, x ∉ p.2 := by
  cases hq : lookupQueue s c.id with
  | none => rw [se_none_eq s c msg hq]; exact h
  | some q =>
    by_cases hr : q.msgs.length < q.capacity
    · rw [se_room_eq s c msg q hq hr]
      exact h
    · rw [se_full_eq s c msg q hq hr]
      exact unreg_nosub_stable s c x h

theorem enq_queue_ne (s : RegState) (y : String) (msg : Frame) (x : String)
    (h : x ≠ y) : lookupQueue (enqueueBlocking s y msg) x = lookupQueue s x :=
  congrArg (Option.map Prod.snd)
    (find_modify_ne s.queues y x (fun q => { q with msgs := q.msgs ++ [msg] }) h)

theorem enq_queue_self (s : RegState) (y : String) (msg : Frame) (q : QueueState)
    (hq : lookupQueue s y = some q) :
    lookupQueue (enqueueBlocking s y msg) y = some { q with msgs := q.msgs ++ [msg] } := by
  have h1 : lookupQueue (enqueueBlocking s y msg) y
      = ((s.queues.find? (fun p => p.1 = y)).map Prod.snd).map
          (fun qq => { qq with msgs := qq.msgs ++ [msg] }) :=
    find_modify_self s.queues y (fun qq => { qq with msgs := qq.msgs ++ [msg] })
  rw [h1]
  unfold lookupQueue at hq
  rw [hq]
  rfl

theorem enq_clients (s : RegState) (y : String) (msg : Frame) :
    (enqueueBlocking s y msg).clients = s.clients := rfl

theorem enq_subscribers (s : RegState) (y : String) (msg : Frame) :
    (enqueueBlocking s y msg).subscribers = s.subscribers := rfl

/-! Membership facts about `GetSubscribers` and lookups by id. -/

theorem mem_getSubscribers (st : RegState) (d : Nat) (c : Client)
    (h : c ∈ GetSubscribers st d) : c ∈ st.clients := by
  unfold GetSubscribers at h
  cases hf : st.subscribers.find? (fun ds => ds.1 = d) with
  | none => rw [hf] at h; exact absurd h (List.not_mem_nil c)
  | some ds =>
    rw [hf] at h
    simp only [List.mem_filterMap] at h
    obtain ⟨i, _, hfind⟩ := h
    exact List.mem_of_find?_eq_some hfind

theorem find_client_self (l : List Client) (A : Client)
    (hnd : (l.map Client.id).Nodup) (h : A ∈ l) :
    l.find? (fun c => c.id = A.id) = some A := by
  induction l with
  | nil => exact absurd h (List.not_mem_nil A)
  | cons h0 t ih =>
    simp only [List.map_cons, List.nodup_cons] at hnd
    rcases List.mem_cons.mp h with rfl | hA
    · rw [List.find?_cons_of_pos _ (by simp)]
    · have hne : ¬ h0.id = A.id := by
        intro hh
        exact hnd.1 (hh ▸ List.mem_map_of_mem Client.id hA)
      rw [List.find?_cons_of_neg _ (by simpa using hne)]
      exact ih hnd.2 hA

theorem nodup_id_inj (l : List Client) (hnd : (l.map Client.id).Nodup)
    (a b : Client) (ha : a ∈ l) (hb : b ∈ l) (hid : a.id = b.id) : a = b := by
  induction l with
  | nil => exact absurd ha (List.not_mem_nil a)
  | cons h0 t ih =>
    simp only [List.map_cons, List.nodup_cons] at hnd
    rcases List.mem_cons.mp ha with rfl | ha2
    · rcases List.mem_cons.mp hb with rfl | hb2
      · rfl
      · exact absurd (hid ▸ List.mem_map_of_mem Client.id hb2) hnd.1
    · rcases List.mem_cons.mp hb with rfl | hb2
      · exact absurd (hid ▸ List.mem_map_of_mem Client.id ha2) hnd.1
      · exact ih hnd.2 ha2 hb2

/-! Generic lemmas about the broadcast fan-out loop: both broadcast
operations are `foldl` of a skip-or-send step over the subscriber
snapshot, differing only in the skip predicate. -/

/-- The common shape of the two broadcast loops. -/
def fanout (skip : Client → Prop) [DecidablePred skip] (msg : Frame)
    (st : RegState) (subs : List Client) : RegState :=
  subs.foldl (fun s c => if skip c then s else sendOrEvict s c msg) st

theorem BroadcastToDocument_eq_fanout (st : RegState) (d : Nat) (msg : Frame)
    (ex : String) :
    BroadcastToDocument st d msg ex
      = fanout (fun c => c.id = ex) msg st (GetSubscribers st d) := rfl

theorem BroadcastCursorPosition_eq_fanout (st : RegState) (d : Nat) (m : CursorMsg) :
    BroadcastCursorPosition st d m
      = fanout (fun c => c.userId = m.userId) (Frame.cursor m) st (GetSubscribers st d) := rfl

section FanoutLemmas

variable (skip : Client → Prop) [DecidablePred skip] (msg : Frame)

theorem fanout_cons (st : RegState) (c : Client) (t : List Client) :
    fanout skip msg st (c :: t)
      = fanout skip msg (if skip c then st else sendOrEvict st c msg) t := rfl

theorem fanout_queue_untouched (x : String) : ∀ (subs : List Client) (st : RegState),
    (∀ c ∈ subs, c.id = x → skip c) →
    lookupQueue (fanout skip msg st subs) x = lookupQueue st x := by
  intro subs
  induction subs with
  | nil => intro st _; rfl
  | cons h0 t ih =>
    intro st h
    rw [fanout_cons]
    by_cases hs : skip h0
    · rw [if_pos hs]
      exact ih st (fun c' hc' => h c' (List.mem_cons_of_mem h0 hc'))
    · rw [if_neg hs]
      have hne : x ≠ h0.id := fun hh =>
        hs (h h0 (List.mem_cons_self h0 t) hh.symm)
      rw [ih _ (fun c' hc' => h c' (List.mem_cons_of_mem h0 hc'))]
      exact se_queue_ne st h0 msg x hne

theorem fanout_clientIds_subset (x : String) : ∀ (subs : List Client) (st : RegState),
    x ∈ clientIds (fanout skip msg st subs) → x ∈ clientIds st := by
  intro subs
  induction subs with
  | nil => intro st h; exact h
  | cons h0 t ih =>
    intro st h
    rw [fanout_cons] at h
    by_cases hs : skip h0
    · rw [if_pos hs] at h
      exact ih st h
    · rw [if_neg hs] at h
      exact se_clientIds_subset st h0 msg x (ih _ h)

theorem fanout_notclient_stable (x : String) (subs : List Client) (st : RegState)
    (h : x ∉ clientIds st) : x ∉ clientIds (fanout skip msg st subs) :=
  fun hx => h (fanout_clientIds_subset skip msg x subs st hx)

theorem fanout_nosub_stable (x : String) : ∀ (subs : List Client) (st : RegState),
    (∀ p ∈ st.subscribers, x ∉ p.2) →
    ∀ p ∈ (fanout skip msg st subs).subscribers, x ∉ p.2 := by
  intro subs
  induction subs with
  | nil => intro st h; exact h
  | cons h0 t ih =>
    intro st h
    rw [fanout_cons]
    by_cases hs : skip h0
    · rw [if_pos hs]
      exact ih st h
    · rw [if_neg hs]
      exact ih _ (se_nosub_stable st h0 msg x h)

theorem fanout_delivers (c : Client) (q : QueueState) :
    ∀ (subs : List Client) (st : RegState),
    (subs.map Client.id).Nodup → c ∈ subs → ¬ skip c →
    lookupQueue st c.id = some q → q.msgs.length < q.capacity →
    lookupQueue (fanout skip msg st subs) c.id
      = some { q with msgs := q.msgs ++ [msg] } := by
  intro subs
  induction subs with
  | nil => intro st _ hc; cases hc
  | cons h0 t ih =>
    intro st hnd hc hskip hq hroom
    simp only [List.map_cons, List.nodup_cons] at hnd
    rw [fanout_cons]
    rcases List.mem_cons.mp hc with rfl | hct
    · rw [if_neg hskip]
      have huntouched : ∀ c' ∈ t, c'.id = c.id → skip c' := by
        intro c' hc' hcc
        exact absurd (hcc ▸ List.mem_map_of_mem Client.id hc') hnd.1
      rw [fanout_queue_untouched skip msg c.id t _ huntouched]
      exact se_room_queue st c msg q hq hroom
    · have hne : h0.id ≠ c.id := fun hh =>
        hnd.1 (hh ▸ List.mem_map_of_mem Client.id hct)
      by_cases hs : skip h0
      · rw [if_pos hs]
        exact ih st hnd.2 hct hskip hq hroom
      · rw [if_neg hs]
        have hq2 : lookupQueue (sendOrEvict st h0 msg) c.id = some q := by
          rw [se_queue_ne st h0 msg c.id (fun hh => hne hh.symm)]
          exact hq
        exact ih _ hnd.2 hct hskip hq2 hroom

theorem fanout_evicts (S : Client) (q : QueueState) :
    ∀ (subs : List Client) (st : RegState),
    (subs.map Client.id).Nodup → S ∈ subs → ¬ skip S →
    lookupQueue st S.id = some q → ¬ q.msgs.length < q.capacity →
    S.id ∈ clientIds st →
    S.id ∉ clientIds (fanout skip msg st subs)
      ∧ (∀ p ∈ (fanout skip msg st subs).subscribers, S.id ∉ p.2)
      ∧ lookupQueue (fanout skip msg st subs) S.id
          = some { q with closeCount := q.closeCount + 1 } := by
  intro subs
  induction subs with
  | nil => intro st _ hS; cases hS
  | cons h0 t ih =>
    intro st hnd hS hskip hq hfull hlive
    simp only [List.map_cons, List.nodup_cons] at hnd
    rw [fanout_cons]
    rcases List.mem_cons.mp hS with rfl | hSt
    · rw [if_neg hskip, se_full_eq st S msg q hq hfull]
      have huntouched : ∀ c' ∈ t, c'.id = S.id → skip c' := by
        intro c' hc' hcc
        exact absurd (hcc ▸ List.mem_map_of_mem Client.id hc') hnd.1
      refine ⟨?_, ?_, ?_⟩
      · exact fanout_notclient_stable skip msg S.id t _ (unreg_not_clientId st S)
      · exact fanout_nosub_stable skip msg S.id t _ (unreg_nosub st S)
      · rw [fanout_queue_untouched skip msg S.id t _ huntouched]
        exact unreg_queue_self st S q hlive hq
    · have hne : h0.id ≠ S.id := fun hh =>
        hnd.1 (hh ▸ List.mem_map_of_mem Client.id hSt)
      by_cases hs : skip h0
      · rw [if_pos hs]
        exact ih st hnd.2 hSt hskip hq hfull hlive
      · rw [if_neg hs]
        have hq2 : lookupQueue (sendOrEvict st h0 msg) S.id = some q := by
          rw [se_queue_ne st h0 msg S.id (fun hh => hne hh.symm)]
          exact hq
        have hlive2 : S.id ∈ clientIds (sendOrEvict st h0 msg) :=
          se_clientIds_keep st h0 msg S.id (fun hh => hne hh.symm) hlive
        exact ih _ hnd.2 hSt hskip hq2 hfull hlive2

end FanoutLemmas

/-! Claim theorems. -/

/-- C1: in any registry state where document `D` has subscribers and
one non-excluded subscriber `S` has an outbound queue already filled
to capacity, `BroadcastToDocument` removes `S` from the live client
set and from every document's subscriber set (closing its queue
without delivering the message to it), while every other non-excluded
subscriber of `D` whose queue has room receives exactly one copy of
the message. -/
theorem C1_broadcast_evicts_saturated (st : RegState) (D : Nat) (msg : Frame)
    (ex : String) (S : Client) (qS : QueueState)
    (hnd : ((GetSubscribers st D).map Client.id).Nodup)
    (hS : S ∈ GetSubscribers st D)
    (hex : S.id ≠ ex)
    (hq : lookupQueue st S.id = some qS)
    (hfull : qS.capacity ≤ qS.msgs.length) :
    S.id ∉ clientIds (BroadcastToDocument st D msg ex)
      ∧ (∀ p ∈ (BroadcastToDocument st D msg ex).subscribers, S.id ∉ p.2)
      ∧ lookupQueue (BroadcastToDocument st D msg ex) S.id
          = some { qS with closeCount := qS.closeCount + 1 }
      ∧ (∀ c ∈ GetSubscribers st D, c.id ≠ ex → c.id ≠ S.id →
          ∀ qc, lookupQueue st c.id = some qc → qc.msgs.length < qc.capacity →
            lookupQueue (BroadcastToDocument st D msg ex) c.id
              = some { qc with msgs := qc.msgs ++ [msg] }) := by
  have hlive : S.id ∈ clientIds st :=
    List.mem_map_of_mem Client.id (mem_getSubscribers st D S hS)
  have hnotroom : ¬ qS.msgs.length < qS.capacity := Nat.not_lt.mpr hfull
  rw [BroadcastToDocument_eq_fanout]
  have hev := fanout_evicts (fun c => c.id = ex) msg S qS (GetSubscribers st D) st
    hnd hS hex hq hnotroom hlive
  refine ⟨hev.1, hev.2.1, hev.2.2, ?_⟩
  intro c hc hcex hcS qc hqc hroom
  exact fanout_delivers (fun c => c.id = ex) msg c qc (GetSubscribers st D) st
    hnd hc hcex hqc hroom

/-- Concrete two-subscriber state used to witness C1: subscriber `S`
has a saturated queue (capacity 1, one buffered frame), `B` has room. -/
def stC1 : RegState :=
  { clients := [⟨"S", 1, "s"⟩, ⟨"B", 2, "b"⟩],
    subscribers := [(7, ["S", "B"])],
    queues := [("S", ⟨[Frame.pong], 1, 0⟩), ("B", ⟨[], 4, 0⟩)] }

theorem C1_witness :
    (((GetSubscribers stC1 7).map Client.id).Nodup
      ∧ (⟨"S", 1, "s"⟩ : Client) ∈ GetSubscribers stC1 7
      ∧ ("S" : String) ≠ "Z"
      ∧ lookupQueue stC1 "S" = some ⟨[Frame.pong], 1, 0⟩
      ∧ (1 : Nat) ≤ [Frame.pong].length)
    ∧ ("S" ∉ clientIds (BroadcastToDocument stC1 7 (Frame.raw "x") "Z")
      ∧ (∀ p ∈ (BroadcastToDocument stC1 7 (Frame.raw "x") "Z").subscribers, "S" ∉ p.2)
      ∧ lookupQueue (BroadcastToDocument stC1 7 (Frame.raw "x") "Z") "S"
          = some ⟨[Frame.pong], 1, 1⟩
      ∧ (∀ c ∈ GetSubscribers stC1 7, c.id ≠ "Z" → c.id ≠ "S" →
          ∀ qc, lookupQueue stC1 c.id = some qc → qc.msgs.length < qc.capacity →
            lookupQueue (BroadcastToDocument stC1 7 (Frame.raw "x") "Z") c.id
              = some { qc with msgs := qc.msgs ++ [Frame.raw "x"] })) :=
  ⟨⟨by decide, by decide, by decide, by decide, by decide⟩,
   C1_broadcast_evicts_saturated stC1 7 (Frame.raw "x") "Z" ⟨"S", 1, "s"⟩
     ⟨[Frame.pong], 1, 0⟩ (by decide) (by decide) (by decide) (by decide) (by decide)⟩

/-- C2: unregistering a registered client removes its id from the live
set and from every document's subscriber set, prunes every emptied
document entry, closes its outbound queue exactly once, and a second
`UnregisterClient` call is a complete no-op (in particular no second
close). -/
theorem C2_unregister_idempotent (st : RegState) (c : Client) (q : QueueState)
    (hc : c ∈ st.clients)
    (hq : lookupQueue st c.id = some q)
    (hq0 : q.closeCount = 0) :
    c.id ∉ clientIds (UnregisterClient st c)
      ∧ (∀ p ∈ (UnregisterClient st c).subscribers, c.id ∉ p.2 ∧ p.2 ≠ [])
      ∧ lookupQueue (UnregisterClient st c) c.id = some { q with closeCount := 1 }
      ∧ UnregisterClient (UnregisterClient st c) c = UnregisterClient st c := by
  have hlive : c.id ∈ clientIds st := List.mem_map_of_mem Client.id hc
  refine ⟨unreg_not_clientId st c, ?_, ?_, ?_⟩
  · intro p hp
    exact ⟨unreg_nosub st c p hp, unreg_nonempty st c p hp⟩
  · rw [unreg_queue_self st c q hlive hq, hq0]
  · have hnc : ¬ (UnregisterClient st c).clients.any (fun x => x.id = c.id) = true := by
      intro hh
      exact unreg_not_clientId st c ((clientIds_any (UnregisterClient st c) c.id).mp hh)
    have hsubs : purgeSubs (UnregisterClient st c).subscribers c.id
        = (UnregisterClient st c).subscribers :=
      purgeSubs_of_absent _ _
        (fun p hp => ⟨unreg_nonempty st c p hp, unreg_nosub st c p hp⟩)
    show UnregisterClient (UnregisterClient st c) c = UnregisterClient st c
    conv_lhs => rw [UnregisterClient]
    rw [if_neg hnc, hsubs]

def stC2 : RegState :=
  { clients := [⟨"A", 1, "a"⟩, ⟨"B", 2, "b"⟩],
    subscribers := [(3, ["A"]), (4, ["A", "B"])],
    queues := [("A", ⟨[Frame.pong], 8, 0⟩), ("B", ⟨[], 8, 0⟩)] }

theorem C2_witness :
    ((⟨"A", 1, "a"⟩ : Client) ∈ stC2.clients
      ∧ lookupQueue stC2 "A" = some ⟨[Frame.pong], 8, 0⟩)
    ∧ ("A" ∉ clientIds (UnregisterClient stC2 ⟨"A", 1, "a"⟩)
      ∧ (∀ p ∈ (UnregisterClient stC2 ⟨"A", 1, "a"⟩).subscribers, "A" ∉ p.2 ∧ p.2 ≠ [])
      ∧ lookupQueue (UnregisterClient stC2 ⟨"A", 1, "a"⟩) "A" = some ⟨[Frame.pong], 8, 1⟩
      ∧ UnregisterClient (UnregisterClient stC2 ⟨"A", 1, "a"⟩) ⟨"A", 1, "a"⟩
          = UnregisterClient stC2 ⟨"A", 1, "a"⟩) :=
  ⟨⟨by decide, by decide⟩,
   C2_unregister_idempotent stC2 ⟨"A", 1, "a"⟩ ⟨[Frame.pong], 8, 0⟩
     (by decide) (by decide) (by decide)⟩

/-- C4: `GetSubscribers` returns only clients present in the live
client set; a subscriber id without a live client is silently skipped
and never appears in the result. -/
theorem C4_subscribers_live (st : RegState) (d : Nat) :
    (∀ c ∈ GetSubscribers st d, c ∈ st.clients)
      ∧ ∀ x : String, x ∉ clientIds st → x ∉ (GetSubscribers st d).map Client.id := by
  constructor
  · intro c hc
    exact mem_getSubscribers st d c hc
  · intro x hx hmem
    simp only [List.mem_map] at hmem
    obtain ⟨c, hc, hcx⟩ := hmem
    exact hx (hcx ▸ List.mem_map_of_mem Client.id (mem_getSubscribers st d c hc))

def stC4 : RegState :=
  { clients := [⟨"A", 1, "a"⟩],
    subscribers := [(3, ["A", "ghost"])],
    queues := [("A", ⟨[], 8, 0⟩)] }

theorem C4_witness :
    ((⟨"A", 1, "a"⟩ : Client) ∈ GetSubscribers stC4 3
      ∧ (⟨"A", 1, "a"⟩ : Client) ∈ stC4.clients)
    ∧ ("ghost" ∉ clientIds stC4
      ∧ "ghost" ∉ (GetSubscribers stC4 3).map Client.id) :=
  ⟨⟨by decide, (C4_subscribers_live stC4 3).1 ⟨"A", 1, "a"⟩ (by decide)⟩,
   ⟨by decide, (C4_subscribers_live stC4 3).2 "ghost" (by decide)⟩⟩

/-- C5: with exactly two registered clients — `A` owned by the
broadcasting user and `B` owned by a different user — both subscribed
to document `D1`, `BroadcastDocumentUpdate` enqueues exactly one
update frame carrying the given version onto `B`'s queue and enqueues
nothing onto `A`'s queue (no echo of the author's own edit). -/
theorem C5_update_excludes_author (st : RegState) (D1 : Nat) (A B : Client)
    (qB : QueueState) (name : String) (v : Int) (patches : List Patch) (ts : Nat)
    (hAB : A.id ≠ B.id)
    (hu : B.userId ≠ A.userId)
    (hcl : st.clients = [A, B] ∨ st.clients = [B, A])
    (hsub : GetSubscribers st D1 = [A, B] ∨ GetSubscribers st D1 = [B, A])
    (hqB : lookupQueue st B.id = some qB)
    (hroom : qB.msgs.length < qB.capacity) :
    lookupQueue (BroadcastDocumentUpdate st D1 A.userId name v patches ts).1 B.id
        = some { qB with msgs := qB.msgs ++ [Frame.update D1 v patches A.userId name ts] }
      ∧ lookupQueue (BroadcastDocumentUpdate st D1 A.userId name v patches ts).1 A.id
          = lookupQueue st A.id
      ∧ (BroadcastDocumentUpdate st D1 A.userId name v patches ts).2 = Except.ok () := by
  have hfind : (GetClients st).find? (fun c => c.userId = A.userId) = some A := by
    rcases hcl with h | h
    · unfold GetClients
      rw [h, List.find?_cons_of_pos _ (by simp)]
    · unfold GetClients
      rw [h, List.find?_cons_of_neg _ (by simpa using hu),
          List.find?_cons_of_pos _ (by simp)]
  have heq : BroadcastDocumentUpdate st D1 A.userId name v patches ts
      = (BroadcastToDocument st D1 (Frame.update D1 v patches A.userId name ts) A.id,
         Except.ok ()) := by
    unfold BroadcastDocumentUpdate
    rw [hfind]
  rw [heq]
  have hnd : ((GetSubscribers st D1).map Client.id).Nodup := by
    rcases hsub with h | h <;> rw [h]
    · simp [List.nodup_cons, hAB]
    · simp [List.nodup_cons, Ne.symm hAB]
  have hBmem : B ∈ GetSubscribers st D1 := by
    rcases hsub with h | h <;> rw [h] <;> simp
  refine ⟨?_, ?_, rfl⟩
  · rw [BroadcastToDocument_eq_fanout]
    exact fanout_delivers (fun c => c.id = A.id)
      (Frame.update D1 v patches A.userId name ts) B qB (GetSubscribers st D1) st
      hnd hBmem (fun hh => hAB hh.symm) hqB hroom
  · rw [BroadcastToDocument_eq_fanout]
    exact fanout_queue_untouched (fun c => c.id = A.id)
      (Frame.update D1 v patches A.userId name ts) A.id (GetSubscribers st D1) st
      (fun c' hc' hcc => hcc)

def stC5 : RegState :=
  { clients := [⟨"A", 1, "alice"⟩, ⟨"B", 2, "bob"⟩],
    subscribers := [(9, ["A", "B"])],
    queues := [("A", ⟨[], 4, 0⟩), ("B", ⟨[], 4, 0⟩)] }

theorem C5_witness :
    (("A" : String) ≠ "B"
      ∧ (2 : Nat) ≠ 1
      ∧ stC5.clients = [⟨"A", 1, "alice"⟩, ⟨"B", 2, "bob"⟩]
      ∧ GetSubscribers stC5 9 = [⟨"A", 1, "alice"⟩, ⟨"B", 2, "bob"⟩]
      ∧ lookupQueue stC5 "B" = some ⟨[], 4, 0⟩)
    ∧ (lookupQueue (BroadcastDocumentUpdate stC5 9 1 "alice" 2
          [⟨"replace", "/content", some "hi"⟩] 0).1 "B"
        = some ⟨[Frame.update 9 2 [⟨"replace", "/content", some "hi"⟩] 1 "alice" 0], 4, 0⟩
      ∧ lookupQueue (BroadcastDocumentUpdate stC5 9 1 "alice" 2
          [⟨"replace", "/content", some "hi"⟩] 0).1 "A" = lookupQueue stC5 "A"
      ∧ (BroadcastDocumentUpdate stC5 9 1 "alice" 2
          [⟨"replace", "/content", some "hi"⟩] 0).2 = Except.ok ()) :=
  ⟨⟨by decide, by decide, by decide, by decide, by decide⟩,
   C5_update_excludes_author stC5 9 ⟨"A", 1, "alice"⟩ ⟨"B", 2, "bob"⟩ ⟨[], 4, 0⟩
     "alice" 2 [⟨"replace", "/content", some "hi"⟩] 0
     (by decide) (by decide) (Or.inl (by decide)) (Or.inl (by decide))
     (by decide) (by decide)⟩

/-- C6: `BroadcastCursorPosition` never enqueues the cursor message
onto the queue of any client owned by the message's user (exclusion is
by user id, so all of that user's connections are skipped), while
every subscriber of the document owned by a different user whose
queue has room receives the cursor frame. -/
theorem C6_cursor_excludes_user (st : RegState) (D : Nat) (m : CursorMsg)
    (hnd : ((GetSubscribers st D).map Client.id).Nodup)
    (hclnd : (clientIds st).Nodup) :
    (∀ c ∈ st.clients, c.userId = m.userId →
       lookupQueue (BroadcastCursorPosition st D m) c.id = lookupQueue st c.id)
      ∧ (∀ c ∈ GetSubscribers st D, c.userId ≠ m.userId →
          ∀ qc, lookupQueue st c.id = some qc → qc.msgs.length < qc.capacity →
            lookupQueue (BroadcastCursorPosition st D m) c.id
              = some { qc with msgs := qc.msgs ++ [Frame.cursor m] }) := by
  rw [BroadcastCursorPosition_eq_fanout]
  constructor
  · intro c hc hcu
    apply fanout_queue_untouched (fun c => c.userId = m.userId) (Frame.cursor m)
      c.id (GetSubscribers st D) st
    intro c' hc' hcc
    have hc'cl : c' ∈ st.clients := mem_getSubscribers st D c' hc'
    have hcc2 : c' = c := nodup_id_inj st.clients hclnd c' c hc'cl hc hcc
    rw [hcc2]
    exact hcu
  · intro c hc hcu qc hqc hroom
    exact fanout_delivers (fun c => c.userId = m.userId) (Frame.cursor m)
      c qc (GetSubscribers st D) st hnd hc hcu hqc hroom

def stC6 : RegState :=
  { clients := [⟨"A", 1, "alice"⟩, ⟨"B", 2, "bob"⟩],
    subscribers := [(9, ["A", "B"])],
    queues := [("A", ⟨[], 4, 0⟩), ("B", ⟨[], 4, 0⟩)] }

def curC6 : CursorMsg := ⟨9, 3, 5, 1, "alice", "#ff0000"⟩

theorem C6_witness :
    (((GetSubscribers stC6 9).map Client.id).Nodup
      ∧ (clientIds stC6).Nodup)
    ∧ (((⟨"A", 1, "alice"⟩ : Client) ∈ stC6.clients
        ∧ lookupQueue (BroadcastCursorPosition stC6 9 curC6) "A" = lookupQueue stC6 "A")
      ∧ ((⟨"B", 2, "bob"⟩ : Client) ∈ GetSubscribers stC6 9
        ∧ lookupQueue (BroadcastCursorPosition stC6 9 curC6) "B"
            = some ⟨[Frame.cursor curC6], 4, 0⟩)) :=
  ⟨⟨by decide, by decide⟩,
   ⟨⟨by decide,
     (C6_cursor_excludes_user stC6 9 curC6 (by decide) (by decide)).1
       ⟨"A", 1, "alice"⟩ (by decide) (by decide)⟩,
    ⟨by decide,
     (C6_cursor_excludes_user stC6 9 curC6 (by decide) (by decide)).2
       ⟨"B", 2, "bob"⟩ (by decide) (by decide) ⟨[], 4, 0⟩ (by decide) (by decide)⟩⟩⟩

instance instDecEqExceptStringUnit : DecidableEq (Except String Unit) := fun a b =>
  match a, b with
  | Except.error x, Except.error y =>
      if h : x = y then isTrue (by rw [h]) else isFalse (fun hh => h (Except.error.inj hh))
  | Except.error _, Except.ok _ => isFalse (fun hh => Except.noConfusion hh)
  | Except.ok _, Except.error _ => isFalse (fun hh => Except.noConfusion hh)
  | Except.ok x, Except.ok y =>
      if h : x = y then isTrue (by rw [h]) else isFalse (fun hh => h (Except.ok.inj hh))

/-- C7: when the access check reports that the caller cannot read the
requested document (`ok false`, no error), the subscribe handler
returns the unauthorized error and leaves the registry state — in
particular the subscription index — completely unchanged. -/
theorem C7_subscribe_unauthorized (access : AccessCheck) (st : RegState)
    (clientID : String) (userID : Nat) (m : SubscribeMsg)
    (hacc : access m.docId userID "read" = Except.ok false) :
    handleSubscribe access st clientID userID (Except.ok m)
      = (st, Except.error "unauthorized access to document") := by
  unfold handleSubscribe
  dsimp only
  rw [hacc]

def stC7 : RegState :=
  { clients := [⟨"A", 1, "a"⟩],
    subscribers := [(4, ["A"])],
    queues := [("A", ⟨[], 4, 0⟩)] }

theorem C7_witness :
    ((fun (_ : Nat) (_ : Nat) (_ : String) => (Except.ok false : Except String Bool))
        5 1 "read" = Except.ok false)
    ∧ handleSubscribe (fun _ _ _ => Except.ok false) stC7 "A" 1 (Except.ok ⟨5⟩)
        = (stC7, Except.error "unauthorized access to document") :=
  ⟨rfl, C7_subscribe_unauthorized (fun _ _ _ => Except.ok false) stC7 "A" 1 ⟨5⟩ rfl⟩

/-- C8 (amended): a frame whose envelope JSON fails to decode is
logged and skipped with NO error frame sent back, the connection
remaining open; a well-formed frame with an unknown discriminant gets
exactly one error frame (code `error`, message `invalid message
type`) enqueued back to the same peer, the connection remaining open;
a known-discriminant frame whose payload decode fails likewise gets an
error frame carrying the decode error, the connection remaining
open. -/
theorem C8_protocol_errors :
    (∀ (access : AccessCheck) (st : RegState) (c : Client),
       readPumpStep access st c Inbound.malformed = (st, true))
    ∧ (∀ (access : AccessCheck) (st : RegState) (c : Client) (t : String)
         (sub : Except String SubscribeMsg) (cur : Except String CursorMsg),
         t ≠ "subscribe" → t ≠ "cursor" → t ≠ "ping" →
         readPumpStep access st c (Inbound.wellFormed t sub cur)
           = (enqueueBlocking st c.id (Frame.mkError "error" "invalid message type"), true))
    ∧ (∀ (access : AccessCheck) (st : RegState) (c : Client) (e : String)
         (cur : Except String CursorMsg),
         readPumpStep access st c (Inbound.wellFormed "subscribe" (Except.error e) cur)
           = (enqueueBlocking st c.id (Frame.mkError "error" e), true))
    ∧ (∀ (access : AccessCheck) (st : RegState) (c : Client) (e : String)
         (sub : Except String SubscribeMsg),
         readPumpStep access st c (Inbound.wellFormed "cursor" sub (Except.error e))
           = (enqueueBlocking st c.id (Frame.mkError "error" e), true)) := by
  refine ⟨fun access st c => rfl, ?_, fun access st c e cur => rfl,
    fun access st c e sub => rfl⟩
  intro access st c t sub cur h1 h2 h3
  unfold readPumpStep
  dsimp only
  unfold ProcessMessage
  rw [if_neg h1, if_neg h2, if_neg h3]

def stC8 : RegState :=
  { clients := [⟨"A", 1, "a"⟩],
    subscribers := [],
    queues := [("A", ⟨[], 256, 0⟩)] }

/-- C8 counterexample to the claim as stated: a malformed frame (the
envelope fails to decode) produces NO error frame on the peer's queue
— the state is returned untouched, the peer's queue still empty — even
though the connection does stay open. -/
theorem C8_counterexample :
    readPumpStep (fun _ _ _ => Except.ok true) stC8 ⟨"A", 1, "a"⟩ Inbound.malformed
        = (stC8, true)
      ∧ (lookupQueue stC8 "A").map QueueState.msgs = some [] :=
  ⟨rfl, rfl⟩

theorem C8_witness :
    (("bogus" : String) ≠ "subscribe" ∧ ("bogus" : String) ≠ "cursor"
      ∧ ("bogus" : String) ≠ "ping")
    ∧ readPumpStep (fun _ _ _ => Except.ok true) stC8 ⟨"A", 1, "a"⟩
        (Inbound.wellFormed "bogus" (Except.ok ⟨5⟩) (Except.error "x"))
      = (enqueueBlocking stC8 "A" (Frame.mkError "error" "invalid message type"), true) :=
  ⟨⟨by decide, by decide, by decide⟩,
   C8_protocol_errors.2.1 (fun _ _ _ => Except.ok true) stC8 ⟨"A", 1, "a"⟩ "bogus"
     (Except.ok ⟨5⟩) (Except.error "x") (by decide) (by decide) (by decide)⟩

/-- C9: a ping message processed for a registered connection `A`
enqueues exactly one pong frame, onto `A`'s own queue only — every
other queue, the live set and the subscription index are untouched —
and the handler reports success. -/
theorem C9_ping_pong (access : AccessCheck) (st : RegState) (A : Client)
    (qA : QueueState) (u : Nat)
    (sub : Except String SubscribeMsg) (cur : Except String CursorMsg)
    (hnd : (clientIds st).Nodup)
    (hA : A ∈ st.clients)
    (hq : lookupQueue st A.id = some qA) :
    ProcessMessage access st A.id u "ping" sub cur
        = (enqueueBlocking st A.id Frame.pong, Except.ok ())
      ∧ lookupQueue (enqueueBlocking st A.id Frame.pong) A.id
          = some { qA with msgs := qA.msgs ++ [Frame.pong] }
      ∧ (∀ x : String, x ≠ A.id →
          lookupQueue (enqueueBlocking st A.id Frame.pong) x = lookupQueue st x)
      ∧ (enqueueBlocking st A.id Frame.pong).clients = st.clients
      ∧ (enqueueBlocking st A.id Frame.pong).subscribers = st.subscribers := by
  refine ⟨?_, enq_queue_self st A.id Frame.pong qA hq,
    fun x hx => enq_queue_ne st A.id Frame.pong x hx, rfl, rfl⟩
  unfold ProcessMessage
  rw [if_neg (by decide), if_neg (by decide), if_pos rfl]
  unfold handlePing
  rw [find_client_self (GetClients st) A hnd hA]

def stC9 : RegState :=
  { clients := [⟨"A", 1, "a"⟩, ⟨"B", 2, "b"⟩],
    subscribers := [(4, ["A", "B"])],
    queues := [("A", ⟨[], 4, 0⟩), ("B", ⟨[], 4, 0⟩)] }

theorem C9_witness :
    ((clientIds stC9).Nodup
      ∧ (⟨"A", 1, "a"⟩ : Client) ∈ stC9.clients
      ∧ lookupQueue stC9 "A" = some ⟨[], 4, 0⟩)
    ∧ (ProcessMessage (fun _ _ _ => Except.ok true) stC9 "A" 1 "ping"
          (Except.error "x") (Except.error "x")
        = (enqueueBlocking stC9 "A" Frame.pong, Except.ok ())
      ∧ lookupQueue (enqueueBlocking stC9 "A" Frame.pong) "A"
          = some ⟨[Frame.pong], 4, 0⟩
      ∧ (∀ x : String, x ≠ "A" →
          lookupQueue (enqueueBlocking stC9 "A" Frame.pong) x = lookupQueue stC9 x)
      ∧ (enqueueBlocking stC9 "A" Frame.pong).clients = stC9.clients
      ∧ (enqueueBlocking stC9 "A" Frame.pong).subscribers = stC9.subscribers) :=
  ⟨⟨by decide, by decide, by decide⟩,
   C9_ping_pong (fun _ _ _ => Except.ok true) stC9 ⟨"A", 1, "a"⟩ ⟨[], 4, 0⟩ 1
     (Except.error "x") (Except.error "x") (by decide) (by decide) (by decide)⟩

/-- C10: a ping whose client id has no live client is silently
dropped: `ProcessMessage` returns the state unchanged (so no queue
receives a pong) and still reports success rather than an error. -/
theorem C10_ping_absent (access : AccessCheck) (st : RegState) (clientID : String)
    (u : Nat) (sub : Except String SubscribeMsg) (cur : Except String CursorMsg)
    (habs : ∀ c ∈ st.clients, c.id ≠ clientID) :
    ProcessMessage access st clientID u "ping" sub cur = (st, Except.ok ()) := by
  unfold ProcessMessage
  rw [if_neg (by decide), if_neg (by decide), if_pos rfl]
  unfold handlePing
  have hfind : (GetClients st).find? (fun c => c.id = clientID) = none := by
    apply List.find?_eq_none.mpr
    intro c hc
    simpa using habs c hc
  rw [hfind]

theorem C10_witness :
    (∀ c ∈ stC9.clients, c.id ≠ "ghost")
    ∧ ProcessMessage (fun _ _ _ => Except.ok true) stC9 "ghost" 1 "ping"
        (Except.error "x") (Except.error "x") = (stC9, Except.ok ()) :=
  ⟨by decide,
   C10_ping_absent (fun _ _ _ => Except.ok true) stC9 "ghost" 1
     (Except.error "x") (Except.error "x") (by decide)⟩

/-! Preservation of the subscription-index invariant `Inv` by each
registry operation (with `Subscribe` guarded by liveness of the
subscribed id). -/

theorem Inv_register (st : RegState) (c : Client) (h : Inv st) :
    Inv (RegisterClient st c) := by
  intro p hp
  unfold RegisterClient at hp ⊢
  by_cases hc : st.clients.any (fun x => x.id = c.id) = true
  · rw [if_pos hc] at hp ⊢
    have h2 := h p hp
    refine ⟨h2.1, fun i hi => ?_⟩
    have h3 := h2.2 i hi
    simp only [clientIds, List.mem_map] at h3 ⊢
    obtain ⟨x, hx, hxi⟩ := h3
    refine ⟨if x.id = c.id then c else x, ⟨x, hx, rfl⟩, ?_⟩
    by_cases hxc : x.id = c.id
    · rw [if_pos hxc, ← hxc]
      exact hxi
    · rw [if_neg hxc]
      exact hxi
  · rw [if_neg hc] at hp ⊢
    have h2 := h p hp
    refine ⟨h2.1, fun i hi => ?_⟩
    have h3 := h2.2 i hi
    simp only [clientIds, List.mem_map] at h3 ⊢
    obtain ⟨x, hx, hxi⟩ := h3
    exact ⟨x, List.mem_append_left _ hx, hxi⟩

theorem Inv_unregister (st : RegState) (c : Client) (h : Inv st) :
    Inv (UnregisterClient st c) := by
  intro p hp
  have hp2 := hp
  rw [UnregisterClient_subscribers] at hp2
  refine ⟨(purgeSubs_spec st.subscribers c.id p hp2).1, fun i hi => ?_⟩
  obtain ⟨p0, hp0, hip0, hic⟩ := purgeSubs_mem st.subscribers c.id p hp2 i hi
  exact unreg_clientIds_keep st c i hic ((h p0 hp0).2 i hip0)

theorem Inv_subscribe (st : RegState) (d : Nat) (i : String) (h : Inv st)
    (hi : i ∈ clientIds st) : Inv (Subscribe st d i) := by
  have hcl : clientIds (Subscribe st d i) = clientIds st := by
    unfold Subscribe
    cases st.subscribers.find? (fun ds => ds.1 = d) <;> rfl
  intro p hp
  rw [hcl]
  unfold Subscribe at hp
  cases hf : st.subscribers.find? (fun ds => ds.1 = d) with
  | some ds =>
    rw [hf] at hp
    simp only [List.mem_map] at hp
    obtain ⟨ds0, hds0, hmap⟩ := hp
    by_cases hdd : ds0.1 = d
    · rw [if_pos hdd] at hmap
      subst hmap
      have h2 := h ds0 hds0
      constructor
      · show (if i ∈ ds0.2 then ds0.2 else ds0.2 ++ [i]) ≠ []
        by_cases hmem : i ∈ ds0.2
        · rw [if_pos hmem]
          exact h2.1
        · rw [if_neg hmem]
          intro hh
          exact absurd hh (by simp)
      · show ∀ j ∈ (if i ∈ ds0.2 then ds0.2 else ds0.2 ++ [i]), j ∈ clientIds st
        intro j hj
        by_cases hmem : i ∈ ds0.2
        · rw [if_pos hmem] at hj
          exact h2.2 j hj
        · rw [if_neg hmem] at hj
          rcases List.mem_append.mp hj with hj1 | hj2
          · exact h2.2 j hj1
          · rw [List.mem_singleton.mp hj2]
            exact hi
    · rw [if_neg hdd] at hmap
      subst hmap
      exact ⟨(h ds0 hds0).1, fun j hj => (h ds0 hds0).2 j hj⟩
  | none =>
    rw [hf] at hp
    rcases List.mem_append.mp hp with hp1 | hp2
    · exact ⟨(h p hp1).1, fun j hj => (h p hp1).2 j hj⟩
    · rw [List.mem_singleton.mp hp2]
      refine ⟨by simp, fun j hj => ?_⟩
      rw [List.mem_singleton.mp hj]
      exact hi

theorem Inv_unsubscribe (st : RegState) (d : Nat) (i : String) (h : Inv st) :
    Inv (Unsubscribe st d i) := by
  have hcl : clientIds (Unsubscribe st d i) = clientIds st := by
    unfold Unsubscribe
    cases st.subscribers.find? (fun ds => ds.1 = d) <;> rfl
  intro p hp
  rw [hcl]
  unfold Unsubscribe at hp
  cases hf : st.subscribers.find? (fun ds => ds.1 = d) with
  | none =>
    rw [hf] at hp
    exact ⟨(h p hp).1, fun j hj => (h p hp).2 j hj⟩
  | some ds =>
    rw [hf] at hp
    simp only [List.mem_filterMap] at hp
    obtain ⟨ds0, hds0, hcase⟩ := hp
    by_cases hdd : ds0.1 = d
    · rw [if_pos hdd] at hcase
      by_cases he : (ds0.2.filter (fun j => j ≠ i)).isEmpty = true
      · rw [if_pos he] at hcase
        exact absurd hcase (by simp)
      · rw [if_neg he] at hcase
        have hval := Option.some.inj hcase
        subst hval
        constructor
        · intro hnil
          have hnil2 : ds0.2.filter (fun j => j ≠ i) = [] := hnil
          rw [hnil2] at he
          simp at he
        · intro j hj
          exact (h ds0 hds0).2 j (List.mem_filter.mp hj).1
    · rw [if_neg hdd] at hcase
      have hval := Option.some.inj hcase
      subst hval
      exact ⟨(h ds0 hds0).1, fun j hj => (h ds0 hds0).2 j hj⟩

theorem Inv_sendOrEvict (s : RegState) (c : Client) (msg : Frame) (h : Inv s) :
    Inv (sendOrEvict s c msg) := by
  cases hq : lookupQueue s c.id with
  | none =>
    rw [se_none_eq s c msg hq]
    exact h
  | some q =>
    by_cases hr : q.msgs.length < q.capacity
    · rw [se_room_eq s c msg q hq hr]
      intro p hp
      exact ⟨(h p hp).1, fun j hj => (h p hp).2 j hj⟩
    · rw [se_full_eq s c msg q hq hr]
      exact Inv_unregister s c h

theorem Inv_fanout (skip : Client → Prop) [DecidablePred skip] (msg : Frame) :
    ∀ (subs : List Client) (st : RegState), Inv st → Inv (fanout skip msg st subs) := by
  intro subs
  induction subs with
  | nil => intro st h; exact h
  | cons h0 t ih =>
    intro st h
    rw [fanout_cons]
    by_cases hs : skip h0
    · rw [if_pos hs]
      exact ih st h
    · rw [if_neg hs]
      exact ih _ (Inv_sendOrEvict st h0 msg h)

/-- C3 counterexample to the claim as stated: the public registry
operations with unrestricted arguments can break the invariant —
`Subscribe` does not check that the subscribed connection id is
registered, so subscribing an unknown id from the fresh registry
yields a state whose index holds an id absent from the live set. -/
theorem C3_counterexample :
    ReachableAny (Subscribe emptyState 0 "ghost")
      ∧ ¬ Inv (Subscribe emptyState 0 "ghost") :=
  ⟨ReachableAny.subscribe emptyState 0 "ghost" ReachableAny.init, by decide⟩

/-- C3 (amended): in every registry state reachable from the fresh
registry by the six registry operations, where every `Subscribe` call
names an id that is live at call time (the discipline the service
layer follows), every connection id in any document's subscriber set
is live and no empty document entry exists. -/
theorem C3_invariant (st : RegState) (h : Reachable st) : Inv st := by
  induction h with
  | init =>
    intro p hp
    exact absurd hp (List.not_mem_nil p)
  | register st1 c _ ih => exact Inv_register st1 c ih
  | unregister st1 c _ ih => exact Inv_unregister st1 c ih
  | subscribe st1 d i _ hi ih => exact Inv_subscribe st1 d i ih hi
  | unsubscribe st1 d i _ ih => exact Inv_unsubscribe st1 d i ih
  | broadcast st1 d msg ex _ ih =>
    rw [BroadcastToDocument_eq_fanout]
    exact Inv_fanout (fun c => c.id = ex) msg (GetSubscribers st1 d) st1 ih
  | cursor st1 d m _ ih =>
    rw [BroadcastCursorPosition_eq_fanout]
    exact Inv_fanout (fun c => c.userId = m.userId) (Frame.cursor m)
      (GetSubscribers st1 d) st1 ih

theorem C3_witness :
    Reachable (Subscribe (RegisterClient emptyState ⟨"A", 1, "a"⟩) 5 "A")
      ∧ Inv (Subscribe (RegisterClient emptyState ⟨"A", 1, "a"⟩) 5 "A") :=
  ⟨Reachable.subscribe (RegisterClient emptyState ⟨"A", 1, "a"⟩) 5 "A"
     (Reachable.register emptyState ⟨"A", 1, "a"⟩ Reachable.init) (by decide),
   C3_invariant (Subscribe (RegisterClient emptyState ⟨"A", 1, "a"⟩) 5 "A")
     (Reachable.subscribe (RegisterClient emptyState ⟨"A", 1, "a"⟩) 5 "A"
       (Reachable.register emptyState ⟨"A", 1, "a"⟩ Reachable.init) (by decide))⟩

end Collab
